import Mathlib

/-!
Shallow embedding of the image-editing toolbox (mask-painting canvas with
pan/zoom, undo/redo history stack, grid splitter, storyboard prompt builder,
and the Gemini service wrapper), together with proofs of the specification
claims about it.  JavaScript numbers are modelled as exact rationals `Rat`
(for canvas coordinates) or naturals `Nat` (for pixel dimensions); JS arrays
become `List`, `null`/`undefined` becomes `Option`, and thrown exceptions
become explicit error constructors.
-/

namespace ImageToolbox

/-- Models `Point` from types.ts: a 2-D coordinate.  JS numbers are modelled as
exact rationals. -/
structure Point where
  x : Rat
  y : Rat
deriving DecidableEq, Repr

/-- Models `Stroke` from types.ts: a painted brush stroke. -/
structure Stroke where
  points : List Point
  size : Rat
deriving DecidableEq, Repr

/-- Models `ToolType` from types.ts. -/
inductive ToolType where
  | BRUSH
  | HAND
deriving DecidableEq, Repr

/-- Models `AppState` from types.ts. -/
inductive AppState where
  | UPLOAD
  | EDIT
  | PROCESSING
  | COMPARE
deriving DecidableEq, Repr

/-! ## CanvasEditor: coordinate transforms, pan, zoom

From the `CanvasEditor` component: the draw loop applies
`ctx.translate(offset.x, offset.y); ctx.scale(scale, scale)` before drawing
the image, and `getCanvasPoint` inverts that transform for pointer events. -/

/-- The local state of the `CanvasEditor` component that the pointer and
wheel handlers read and write. -/
structure CanvasState where
  scale : Rat
  offset : Point
  isDragging : Bool
  lastMousePos : Option Point
  strokes : List Stroke
deriving DecidableEq, Repr

/-- The display transform applied by `draw`: the canvas context is
translated by `offset` and scaled by `scale`, so an image point `p` is
painted at canvas-local position `offset + scale • p`; adding the canvas
bounding rectangle's origin gives its client (screen) position. -/
def displayTransform (scale : Rat) (offset : Point) (rectLeft rectTop : Rat)
    (p : Point) : Point :=
  ⟨rectLeft + offset.x + scale * p.x, rectTop + offset.y + scale * p.y⟩

/-- Models `getCanvasPoint`: converts a client position to image coordinates by
subtracting the canvas rectangle origin and the pan offset, then dividing
by the scale. -/
def getCanvasPoint (scale : Rat) (offset : Point) (rectLeft rectTop : Rat)
    (clientX clientY : Rat) : Point :=
  ⟨(clientX - rectLeft - offset.x) / scale, (clientY - rectTop - offset.y) / scale⟩

/-- Models `handleWheel`: one mouse-wheel zoom step.  `deltaY` decides the
direction, the scale is multiplied by `1 ± 0.1` and clamped to
`[0.1, 10]`, and the offset is recomputed so that the zoom is centred on
the mouse position.  Returns the new `(scale, offset)` pair. -/
def handleWheel (scale : Rat) (offset : Point) (rectLeft rectTop : Rat)
    (clientX clientY deltaY : Rat) : Rat × Point :=
  let zoomIntensity : Rat := 1/10
  let direction : Rat := if deltaY < 0 then 1 else -1
  let zoomFactor := 1 + direction * zoomIntensity
  let newScale := max (1/10) (min (scale * zoomFactor) 10)
  let mouseX := clientX - rectLeft
  let mouseY := clientY - rectTop
  let newOffsetX := mouseX - (mouseX - offset.x) * (newScale / scale)
  let newOffsetY := mouseY - (mouseY - offset.y) * (newScale / scale)
  (newScale, ⟨newOffsetX, newOffsetY⟩)

/-- Models `handlePointerMove`: pans with the hand tool (offset shifted by the
mouse delta) or extends the last stroke with the brush; does nothing when
not dragging. -/
def handlePointerMove (s : CanvasState) (tool : ToolType)
    (rectLeft rectTop clientX clientY : Rat) : CanvasState :=
  if s.isDragging = false then s
  else
    match tool, s.lastMousePos with
    | ToolType.HAND, some last =>
        { s with
          offset := ⟨s.offset.x + (clientX - last.x), s.offset.y + (clientY - last.y)⟩
          lastMousePos := some ⟨clientX, clientY⟩ }
    | ToolType.BRUSH, _ =>
        let point := getCanvasPoint s.scale s.offset rectLeft rectTop clientX clientY
        let strokes' :=
          match s.strokes.getLast? with
          | none => s.strokes
          | some lastStroke =>
              s.strokes.dropLast ++ [{ lastStroke with points := lastStroke.points ++ [point] }]
        { s with strokes := strokes', lastMousePos := some ⟨clientX, clientY⟩ }
    | _, _ => s

/-! ## App: watermark tool state and undo/redo history stack -/

/-- Models `HistorySnapshot` from App.tsx: one entry of the undo/redo history. -/
structure HistorySnapshot where
  appState : AppState
  originalImage : Option String
  processedImage : Option String
  strokes : List Stroke
deriving DecidableEq, Repr

/-- The watermark-tool slice of the App component's state: the live fields
(`appState`, `originalImage`, `processedImage`, `strokes`, `hasMask`,
`errorMsg`, `loadingText`) together with the history array and the history
index.  `historyIndex` is an integer because it is initialised to `-1`. -/
structure WState where
  appState : AppState
  originalImage : Option String
  processedImage : Option String
  strokes : List Stroke
  hasMask : Bool
  loadingText : String
  errorMsg : Option String
  history : List HistorySnapshot
  historyIndex : Int
deriving DecidableEq, Repr

/-- The snapshot of the current live fields, as captured by `pushNewState`
into the current history slot (`{appState, originalImage, processedImage,
strokes: [...strokes]}`). -/
def liveSnapshot (s : WState) : HistorySnapshot :=
  ⟨s.appState, s.originalImage, s.processedImage, s.strokes⟩

/-- Models `restoreSnapshot`: apply a history snapshot to the live fields,
recomputing `hasMask` and clearing the error message. -/
def restoreSnapshot (s : WState) (snapshot : HistorySnapshot) : WState :=
  { s with
    appState := snapshot.appState
    originalImage := snapshot.originalImage
    processedImage := snapshot.processedImage
    strokes := snapshot.strokes
    hasMask := decide (0 < snapshot.strokes.length)
    errorMsg := none }

/-- Step 1 of `pushNewState`: `[...history]` with the current live state
written into slot `historyIndex` when that index is in range. -/
def refreshCurrentSlot (s : WState) : List HistorySnapshot :=
  if 0 ≤ s.historyIndex ∧ s.historyIndex < s.history.length then
    s.history.set s.historyIndex.toNat (liveSnapshot s)
  else
    s.history

/-- Models `pushNewState`: capture the live state into the current slot, discard
the redo tail with `slice(0, historyIndex + 1)`, append the new snapshot,
point the index at the last position and restore the new snapshot. -/
def pushNewState (s : WState) (newState : HistorySnapshot) : WState :=
  let currentHistory := refreshCurrentSlot s
  let upToCurrent := currentHistory.take (s.historyIndex + 1).toNat
  let newHistory := upToCurrent ++ [newState]
  { restoreSnapshot s newState with
    history := newHistory
    historyIndex := (newHistory.length : Int) - 1 }

/-- Models `handleResetWatermarkTool`: return the tool to the pristine upload
screen with an empty history. -/
def handleResetWatermarkTool (s : WState) : WState :=
  { s with
    appState := AppState.UPLOAD
    originalImage := none
    processedImage := none
    strokes := []
    hasMask := false
    history := []
    historyIndex := -1 }

/-- Models `handleStepBack`: move one history entry back and restore it, or reset
the tool when already at (or before) the first entry. -/
def handleStepBack (s : WState) : WState :=
  if 0 < s.historyIndex then
    let newIndex := s.historyIndex - 1
    { restoreSnapshot s ((s.history.getD newIndex.toNat (liveSnapshot s))) with
      historyIndex := newIndex }
  else
    handleResetWatermarkTool s

/-- Models `handleStepForward`: move one history entry forward and restore it,
when a forward entry exists. -/
def handleStepForward (s : WState) : WState :=
  if s.historyIndex < (s.history.length : Int) - 1 then
    let newIndex := s.historyIndex + 1
    { restoreSnapshot s ((s.history.getD newIndex.toNat (liveSnapshot s))) with
      historyIndex := newIndex }
  else
    s

/-- Models `canGoForward = historyIndex < history.length - 1`. -/
def canGoForward (s : WState) : Bool :=
  decide (s.historyIndex < (s.history.length : Int) - 1)

/-- Models `canGoBack = historyIndex > 0 || appState !== AppState.UPLOAD`. -/
def canGoBack (s : WState) : Bool :=
  decide (0 < s.historyIndex) || decide (s.appState ≠ AppState.UPLOAD)

/-- Models `handleUpload` (the `reader.onload` continuation): seed the history
with the fresh EDIT snapshot for the uploaded image. -/
def handleUpload (s : WState) (newImage : String) : WState :=
  let initialState : HistorySnapshot := ⟨AppState.EDIT, some newImage, none, []⟩
  { restoreSnapshot s initialState with
    history := [initialState]
    historyIndex := 0 }

/-- Models `handleStartProcessing`: guard on a loaded image and a mounted canvas,
show the PROCESSING screen, then either push the COMPARE snapshot on
success or, in the `catch` branch, record the error message (falling back
to the default text when it is empty) and return to EDIT.  The outcome of
the awaited `removeWatermark` promise is passed in as `outcome`.  The
transient `setAppState(PROCESSING)` / `setErrorMsg(null)` updates are
overwritten on both paths before the handler finishes, and `pushNewState`
reads the render-time closure values, so the function is modelled as one
step from the pre-click state to the settled state. -/
def handleStartProcessing (s : WState) (canvasMounted : Bool)
    (outcome : Except String String) : WState :=
  if s.originalImage = none ∨ canvasMounted = false then s
  else
    let s1 := { s with loadingText := "magic郑正在施法前摇......" }
    match outcome with
    | Except.ok result =>
        pushNewState s1 ⟨AppState.COMPARE, s.originalImage, some result, s.strokes⟩
    | Except.error msg =>
        { s1 with
          errorMsg := some (if msg = "" then "处理失败，请重试。" else msg)
          appState := AppState.EDIT }

/-- Models `handleApplyEffect`: when a processed image exists, push a fresh EDIT
snapshot whose original image is the processed result. -/
def handleApplyEffect (s : WState) : WState :=
  match s.processedImage with
  | some processed =>
      pushNewState s ⟨AppState.EDIT, some processed, none, []⟩
  | none => s

/-! ## geminiService: image resizing and the inpainting call -/

/-- Models `Math.round` on a non-negative exact quotient `n / d`:
`⌊n / d + 1/2⌋ = (2 * n + d) / (2 * d)` in natural-number division. -/
def jsRound (n d : Nat) : Nat :=
  (2 * n + d) / (2 * d)

/-- The dimension computation of `resizeImage`: when either side exceeds
`MAX_SIZE = 1536`, the longer side is clamped to 1536 and the other side is
scaled proportionally and rounded; otherwise the dimensions are kept. -/
def resizeDims (w h : Nat) : Nat × Nat :=
  let MAX_SIZE := 1536
  if w > MAX_SIZE ∨ h > MAX_SIZE then
    if w > h then
      (MAX_SIZE, jsRound (h * MAX_SIZE) w)
    else
      (jsRound (w * MAX_SIZE) h, MAX_SIZE)
  else
    (w, h)

/-- The value `resizeImage` resolves with: either the untouched input
string (the `img.onerror` fallback) or a re-encoded image of the computed
dimensions (`canvas.toDataURL`, PNG for masks, JPEG quality 0.85 for
photos). -/
inductive ResizeResult where
  | unchanged (original : String)
  | reencoded (w h : Nat) (isMask : Bool)
deriving DecidableEq, Repr

/-- Models `resizeImage`: browser image decoding is modelled by `decode`, which
yields the pixel dimensions of a base64 image string or `none` when
loading fails.  On failure the original string is resolved unchanged; on
success the image is drawn onto a `resizeDims`-sized canvas and re-encoded. -/
def resizeImage (decode : String → Option (Nat × Nat)) (base64Str : String)
    (isMask : Bool) : ResizeResult :=
  match decode base64Str with
  | none => ResizeResult.unchanged base64Str
  | some (w0, h0) =>
      let (w, h) := resizeDims w0 h0
      ResizeResult.reencoded w h isMask

/-- One part of the request payload sent to
`ai.models.generateContent`. -/
inductive ReqPart where
  | text (s : String)
  | inlineData (mimeType : String) (data : String)
deriving DecidableEq, Repr

/-- One part of the model response's `candidates[0].content.parts`:
optional `inlineData.data` and optional `text`. -/
structure RespPart where
  inlineData : Option String
  text : Option String
deriving DecidableEq, Repr

/-- The instruction text of the inpainting request. -/
def inpaintInstruction : String :=
  "Image Editing Task: Inpainting.\n\nInput Data:\n- Image 1: The original photograph.\n- Image 2: A binary mask (White = Area to remove/edit, Black = Keep).\n\nGoal:\nRemove the content in Image 1 that matches the White area in Image 2. Replace it with realistic background texture that blends seamlessly with the surrounding pixels.\n\nConstraint:\nReturn ONLY the processed image."

/-- The regex `^data:(image\x2f[a-zA-Z+]+);base64,` applied to `s`:
returns the captured mime type when the string starts with a base64 data
URL header. -/
def dataUrlMime (s : String) : Option String :=
  if s.startsWith "data:image/" then
    match (s.drop 11).splitOn ";base64," with
    | sub :: _ :: _ =>
        if sub ≠ "" ∧ sub.all (fun ch => ch.isAlpha ∨ ch = '+') then
          some ("image/" ++ sub)
        else none
    | _ => none
  else none

/-- Models `s.replace(/^data:image\x2f[a-zA-Z+]+;base64,/, '')`: strip the data
URL header when the regex matches, otherwise return `s` unchanged. -/
def stripDataUrl (s : String) : String :=
  match dataUrlMime s with
  | some _ =>
      match (s.drop 11).splitOn ";base64," with
      | _ :: rest => String.intercalate ";base64," rest
      | [] => s
  | none => s

/-- The response-parsing loop of `removeWatermark`: the first part whose
`inlineData.data` is present and truthy (non-empty). -/
def firstInlineData : List RespPart → Option String
  | [] => none
  | p :: ps =>
      match p.inlineData with
      | some d => if d ≠ "" then some d else firstInlineData ps
      | none => firstInlineData ps

/-- The outcome of `removeWatermark`: an error thrown before the API call
is made, an error thrown after it (paired with the request that was
sent), or the successful data URL (paired with the request). -/
inductive RemoveWatermarkResult where
  | failBeforeCall (msg : String)
  | failAfterCall (request : List ReqPart) (msg : String)
  | ok (request : List ReqPart) (resultImage : String)
deriving DecidableEq, Repr

/-- The base64 string a `resizeImage` promise resolves with:
the untouched input on decode failure, otherwise the `canvas.toDataURL`
re-encoding, which is opaque to this model and passed in as
`reencodedStr`. -/
def resolveResize (decode : String → Option (Nat × Nat)) (base64Str : String)
    (isMask : Bool) (reencodedStr : String) : String :=
  match resizeImage decode base64Str isMask with
  | ResizeResult.unchanged s => s
  | ResizeResult.reencoded _ _ _ => reencodedStr

/-- Steps 1–3 of `removeWatermark`: the `parts` array of the
`generateContent` request — the instruction text, the resized original
photo (with the mime type sniffed from its data URL header, defaulting to
`image/jpeg`), and the resized mask as `image/png`, the two images with
their data URL headers stripped. -/
def inpaintRequest (decode : String → Option (Nat × Nat))
    (originalImageBase64 maskImageBase64 resizedOriginal resizedMask : String) :
    List ReqPart :=
  let optimizedOriginal := resolveResize decode originalImageBase64 false resizedOriginal
  let optimizedMask := resolveResize decode maskImageBase64 true resizedMask
  let mimeType := (dataUrlMime optimizedOriginal).getD "image/jpeg"
  let cleanOriginal := stripDataUrl optimizedOriginal
  let cleanMask := stripDataUrl optimizedMask
  [ReqPart.text inpaintInstruction,
   ReqPart.inlineData mimeType cleanOriginal,
   ReqPart.inlineData "image/png" cleanMask]

/-- Models `removeWatermark`: throw when the API key is empty; otherwise resize
both images, build the three-part request (instruction text, original
photo, mask), call the model, and return the first inline image of the
response as a PNG data URL, throwing when none is present.  The network
layer is modelled by `response`, the `candidates[0].content.parts` list
(or `none` when that path is absent); `decode` models browser image
decoding inside `resizeImage`. -/
def removeWatermark (decode : String → Option (Nat × Nat))
    (apiKey : String) (originalImageBase64 maskImageBase64 : String)
    (resizedOriginal resizedMask : String)
    (response : Option (List RespPart)) : RemoveWatermarkResult :=
  if apiKey = "" then
    RemoveWatermarkResult.failBeforeCall
      "API Key 未配置。请在URL后添加 ?key=您的API_KEY 或配置环境变量。"
  else
    let request : List ReqPart :=
      inpaintRequest decode originalImageBase64 maskImageBase64
        resizedOriginal resizedMask
    let parts := response.getD []
    match firstInlineData parts with
    | some d =>
        RemoveWatermarkResult.ok request ("data:image/png;base64," ++ d)
    | none =>
        match parts.head? with
        | some p =>
            match p.text with
            | some t =>
                if t ≠ "" then
                  RemoveWatermarkResult.failAfterCall request
                    "AI处理失败: 模型拒绝了该请求(可能涉及敏感内容或无法识别)。"
                else
                  RemoveWatermarkResult.failAfterCall request "AI生成失败，请稍后重试。"
            | none =>
                RemoveWatermarkResult.failAfterCall request "AI生成失败，请稍后重试。"
        | none =>
            RemoveWatermarkResult.failAfterCall request "AI生成失败，请稍后重试。"

/-! ## ImageSplitter: grid splitting -/

/-- The source rectangle of one `ctx.drawImage` call in `processImage`:
position `(x, y)` and size `w × h` in pixels of the original image.
Pixel dimensions are JS numbers, modelled as exact rationals. -/
structure SrcRect where
  x : Rat
  y : Rat
  w : Rat
  h : Rat
deriving DecidableEq, Repr

/-- Models `processImage`: split a `width × height` image into `r` rows and `c`
columns.  The nested `for (row …) for (col …)` loops are modelled as a
`flatMap` over the row indices of a `map` over the column indices; the
element for `(row, col)` is the source rectangle
`(col * partW, row * partH, partW, partH)` with `partW = width / c` and
`partH = height / r`. -/
def processImage (width height : Rat) (r c : Nat) : List SrcRect :=
  let partW := width / (c : Rat)
  let partH := height / (r : Rat)
  (List.range r).flatMap fun (row : Nat) =>
    (List.range c).map fun (col : Nat) =>
      ⟨(col : Rat) * partW, (row : Rat) * partH, partW, partH⟩

/-! ## StoryboardGenerator: final prompt construction -/

/-- Models `StoryboardShot` from types.ts (the UI-only `isRegenerating` flag and
the numeric `id` are not read by `constructFinalPrompt` but are part of
the record). -/
structure StoryboardShot where
  id : Int
  shotTypeCn : String
  shotTypeEn : String
  contentCn : String
  contentEn : String
deriving DecidableEq, Repr

/-- Models `StoryboardData` from types.ts. -/
structure StoryboardData where
  mainPromptCn : String
  mainPromptEn : String
  shots : List StoryboardShot
deriving DecidableEq, Repr

/-- The `displayLang` toggle of the storyboard UI. -/
inductive Lang where
  | cn
  | en
deriving DecidableEq, Repr

/-- Models `String(n).padStart(2, '0')`: the decimal rendering of `n` left-padded
with `'0'` to at least two characters. -/
def padStart2 (n : Nat) : String :=
  if n < 10 then "0" ++ toString n else toString n

/-- The header line of the final prompt (before the trailing newline):
the grid instruction sentence, in the selected language, with the main
description and the selected aspect ratio interpolated. -/
def headerLine (data : StoryboardData) (displayLang : Lang) (aspectRatio : String) :
    String :=
  match displayLang with
  | Lang.cn =>
      "根据" ++ data.mainPromptCn ++
        "，生成一张具有凝聚力的[3x3]网格图像，包含在同一环境中的[9]个不同摄像机镜头，严格保持人物/物体、服装和光线的一致性，[8K]分辨率，[" ++
        aspectRatio ++ "]画幅。"
  | Lang.en =>
      "Based on " ++ data.mainPromptEn ++
        ", generate a cohesive [3x3] grid image containing [9] different camera shots in the same environment, strictly maintaining character/object, clothing, and lighting consistency, [8K] resolution, [" ++
        aspectRatio ++ "] aspect ratio."

/-- The line appended for the shot at 0-based position `i` (with its
trailing newline): `` `${prefix}: [${type}] ${content}\n` ``. -/
def shotLine (displayLang : Lang) (i : Nat) (shot : StoryboardShot) : String :=
  let ty := match displayLang with
    | Lang.cn => shot.shotTypeCn
    | Lang.en => shot.shotTypeEn
  let content := match displayLang with
    | Lang.cn => shot.contentCn
    | Lang.en => shot.contentEn
  let pre := match displayLang with
    | Lang.cn => "镜头" ++ padStart2 (i + 1)
    | Lang.en => "Shot " ++ padStart2 (i + 1)
  pre ++ ": [" ++ ty ++ "] " ++ content ++ "\n"

/-- The `data.shots.forEach` accumulation loop of `constructFinalPrompt`,
carrying the 0-based index alongside the accumulated string. -/
def shotsFold (displayLang : Lang) (shots : List StoryboardShot)
    (i : Nat) (acc : String) : String :=
  match shots with
  | [] => acc
  | shot :: rest => shotsFold displayLang rest (i + 1) (acc ++ shotLine displayLang i shot)

/-- Models `constructFinalPrompt`: empty when no storyboard data exists;
otherwise the header line plus `"\n"`, extended by one line per shot by
the `forEach` loop. -/
def constructFinalPrompt (data : Option StoryboardData) (displayLang : Lang)
    (aspectRatio : String) : String :=
  match data with
  | none => ""
  | some d =>
      shotsFold displayLang d.shots 0 (headerLine d displayLang aspectRatio ++ "\n")

/-! ## Theorems -/

/-- The zoom-offset formula of `handleWheel` is exactly what keeps the
image point under the mouse fixed. -/
theorem zoom_offset_algebra (m o s ns : Rat) (hs : s ≠ 0) (hns : ns ≠ 0) :
    (m - (m - (m - o) * (ns / s))) / ns = (m - o) / s := by
  field_simp
  ring

/-- C3: `getCanvasPoint` computes `((cx - rect.left - offset.x) / scale,
(cy - rect.top - offset.y) / scale)` and is, for every non-zero scale, the
exact inverse of the display transform (translate by the offset, then
scale): converting a drawn image point back yields the original point, in
exact rational arithmetic. -/
theorem getCanvasPoint_inverts_displayTransform (scale : Rat) (offset : Point)
    (rectLeft rectTop : Rat) (hs : scale ≠ 0) :
    (∀ clientX clientY,
        getCanvasPoint scale offset rectLeft rectTop clientX clientY =
          ⟨(clientX - rectLeft - offset.x) / scale,
           (clientY - rectTop - offset.y) / scale⟩) ∧
    (∀ p : Point,
        getCanvasPoint scale offset rectLeft rectTop
          (displayTransform scale offset rectLeft rectTop p).x
          (displayTransform scale offset rectLeft rectTop p).y = p) := by
  constructor
  · intro clientX clientY
    rfl
  · rintro ⟨px, py⟩
    simp only [getCanvasPoint, displayTransform, Point.mk.injEq]
    constructor <;> (field_simp; ring)

/-- Witness for C3 at scale 2, offset (3, 4), rectangle origin (1, 1) and
image point (5, 6). -/
theorem getCanvasPoint_inverts_displayTransform_witness :
    getCanvasPoint 2 ⟨3, 4⟩ 1 1
      (displayTransform 2 ⟨3, 4⟩ 1 1 ⟨5, 6⟩).x
      (displayTransform 2 ⟨3, 4⟩ 1 1 ⟨5, 6⟩).y = ⟨5, 6⟩ :=
  (getCanvasPoint_inverts_displayTransform 2 ⟨3, 4⟩ 1 1 (by norm_num)).2 ⟨5, 6⟩

/-- C8: a wheel-zoom step keeps the image point under the cursor fixed:
with the new scale and offset computed by `handleWheel`,
`(mouse - newOffset) / newScale = (mouse - offset) / scale` holds exactly
over the rationals, in both coordinates, whenever the old scale is
positive. -/
theorem handleWheel_keeps_cursor_point (scale : Rat) (offset : Point)
    (rectLeft rectTop clientX clientY deltaY : Rat) (hs : 0 < scale) :
    ((clientX - rectLeft) -
        (handleWheel scale offset rectLeft rectTop clientX clientY deltaY).2.x) /
        (handleWheel scale offset rectLeft rectTop clientX clientY deltaY).1 =
      ((clientX - rectLeft) - offset.x) / scale ∧
    ((clientY - rectTop) -
        (handleWheel scale offset rectLeft rectTop clientX clientY deltaY).2.y) /
        (handleWheel scale offset rectLeft rectTop clientX clientY deltaY).1 =
      ((clientY - rectTop) - offset.y) / scale := by
  have hns : (0:Rat) <
      max (1/10) (min (scale * (1 + (if deltaY < 0 then (1:Rat) else -1) * (1/10))) 10) :=
    lt_of_lt_of_le (by norm_num) (le_max_left _ _)
  exact ⟨zoom_offset_algebra _ _ _ _ (ne_of_gt hs) (ne_of_gt hns),
         zoom_offset_algebra _ _ _ _ (ne_of_gt hs) (ne_of_gt hns)⟩

/-- Witness for C8 at scale 2, offset (3, 4), rectangle origin (0, 0),
cursor (7, 9), zoom-in wheel delta -1. -/
theorem handleWheel_keeps_cursor_point_witness :
    ((7:Rat) - 0 - (handleWheel 2 ⟨3, 4⟩ 0 0 7 9 (-1)).2.x) /
        (handleWheel 2 ⟨3, 4⟩ 0 0 7 9 (-1)).1 =
      ((7:Rat) - 0 - (3:Rat)) / 2 ∧
    ((9:Rat) - 0 - (handleWheel 2 ⟨3, 4⟩ 0 0 7 9 (-1)).2.y) /
        (handleWheel 2 ⟨3, 4⟩ 0 0 7 9 (-1)).1 =
      ((9:Rat) - 0 - (4:Rat)) / 2 :=
  handleWheel_keeps_cursor_point 2 ⟨3, 4⟩ 0 0 7 9 (-1) (by norm_num)

/-- C9: after every wheel event the scale lies in `[0.1, 10]`, whatever
the scale was before, and `handlePointerMove` (panning with the hand tool
or painting with the brush) never changes the scale. -/
theorem scale_invariants (scale : Rat) (offset : Point)
    (rectLeft rectTop clientX clientY deltaY : Rat)
    (s : CanvasState) (tool : ToolType) (l t cx cy : Rat) :
    ((1/10 : Rat) ≤ (handleWheel scale offset rectLeft rectTop clientX clientY deltaY).1 ∧
      (handleWheel scale offset rectLeft rectTop clientX clientY deltaY).1 ≤ 10) ∧
    (handlePointerMove s tool l t cx cy).scale = s.scale := by
  refine ⟨⟨le_max_left _ _, max_le (by norm_num) (min_le_right _ _)⟩, ?_⟩
  unfold handlePointerMove
  split
  · rfl
  · rcases tool with _ | _ <;> rcases s.lastMousePos with _ | last <;> simp

/-- C1: a push captures the live state into the current slot, discards
every entry after the current index by slicing, appends the new
snapshot (which therefore is the last entry), and points the index at the
last position — so immediately after any push the redo button is
disabled. -/
theorem pushNewState_discards_future_and_disables_redo (s : WState)
    (snap : HistorySnapshot) :
    (pushNewState s snap).history =
      (refreshCurrentSlot s).take (s.historyIndex + 1).toNat ++ [snap] ∧
    (pushNewState s snap).history.getLast? = some snap ∧
    (pushNewState s snap).historyIndex =
      ((pushNewState s snap).history.length : Int) - 1 ∧
    canGoForward (pushNewState s snap) = false := by
  refine ⟨rfl, List.getLast?_concat _, rfl, ?_⟩
  simp [canGoForward, pushNewState]

/-- The pristine initial state of the watermark tool: UPLOAD screen, no
images, no strokes, empty history, index `-1`. -/
def initialWState : WState :=
  { appState := AppState.UPLOAD
    originalImage := none
    processedImage := none
    strokes := []
    hasMask := false
    loadingText := ""
    errorMsg := none
    history := []
    historyIndex := -1 }

/-- Painting one brush stroke: `handlePointerDown` with the brush tool
appends a fresh stroke to the App's `strokes` state, and the `useEffect`
recomputes `hasMask`. -/
def paintStroke (s : WState) (st : Stroke) : WState :=
  { s with
    strokes := s.strokes ++ [st]
    hasMask := decide (0 < (s.strokes ++ [st]).length) }

/-- Counterexample to C2: upload an image (slot 0 records EDIT with no
strokes), paint a stroke, then run a successful inpainting call.  The
push overwrites slot 0 with the live state, so the snapshot first
recorded there is gone and stepping back restores the painted strokes,
not the empty stroke list first recorded. -/
theorem history_slot_rewritten_by_push :
    (handleUpload initialWState "img").history[0]? =
      some ⟨AppState.EDIT, some "img", none, []⟩ ∧
    (handleStartProcessing
        (paintStroke (handleUpload initialWState "img") ⟨[⟨1, 2⟩], 20⟩)
        true (Except.ok "out")).history[0]? ≠
      some ⟨AppState.EDIT, some "img", none, []⟩ ∧
    (handleStartProcessing
        (paintStroke (handleUpload initialWState "img") ⟨[⟨1, 2⟩], 20⟩)
        true (Except.ok "out")).history[0]? =
      some ⟨AppState.EDIT, some "img", none, [⟨[⟨1, 2⟩], 20⟩]⟩ ∧
    (handleStepBack (handleStartProcessing
        (paintStroke (handleUpload initialWState "img") ⟨[⟨1, 2⟩], 20⟩)
        true (Except.ok "out"))).strokes = [⟨[⟨1, 2⟩], 20⟩] := by
  decide

/-- C2 as amended: a push first overwrites the entry at the current
history index with the current live state; only entries strictly before
the current index are left unchanged, so stepping back restores the live
state captured by the most recent push from that index, not necessarily
the snapshot first recorded there. -/
theorem pushNewState_rewrites_current_slot_only (s : WState)
    (snap : HistorySnapshot) (k : Nat)
    (h0 : 0 ≤ s.historyIndex)
    (hidx : s.historyIndex < (s.history.length : Int))
    (hk : (k : Int) < s.historyIndex) :
    (pushNewState s snap).history[k]? = s.history[k]? ∧
    (pushNewState s snap).history[s.historyIndex.toNat]? =
      some (liveSnapshot s) := by
  set i := s.historyIndex.toNat with hi
  have hIdxEq : s.historyIndex = (i : Int) := (Int.toNat_of_nonneg h0).symm
  have hiLen : i < s.history.length := by omega
  have hkLt : k < i := by omega
  have hrefresh : refreshCurrentSlot s = s.history.set i (liveSnapshot s) := by
    unfold refreshCurrentSlot
    rw [if_pos ⟨h0, hidx⟩]
  have hsucc : (s.historyIndex + 1).toNat = i + 1 := by omega
  have hhist : (pushNewState s snap).history =
      (s.history.set i (liveSnapshot s)).take (i + 1) ++ [snap] := by
    show (refreshCurrentSlot s).take (s.historyIndex + 1).toNat ++ [snap] = _
    rw [hrefresh, hsucc]
  have htakelen : ((s.history.set i (liveSnapshot s)).take (i + 1)).length = i + 1 := by
    simp [List.length_take]
    omega
  constructor
  · rw [hhist, List.getElem?_append_left (by omega),
      List.getElem?_take_of_lt (by omega), List.getElem?_set_ne (by omega)]
  · rw [hhist, List.getElem?_append_left (by omega),
      List.getElem?_take_of_lt (by omega), List.getElem?_set_self hiLen]

/-- Witness for the amended C2 on a three-entry history with the index at
the last entry. -/
theorem pushNewState_rewrites_current_slot_only_witness :
    (pushNewState
        { initialWState with
          appState := AppState.COMPARE
          history :=
            [⟨AppState.EDIT, some "a", none, []⟩,
             ⟨AppState.EDIT, some "b", none, []⟩,
             ⟨AppState.COMPARE, some "b", some "c", []⟩]
          historyIndex := 2 }
        ⟨AppState.EDIT, some "c", none, []⟩).history[1]? =
      (({ initialWState with
          appState := AppState.COMPARE
          history :=
            [⟨AppState.EDIT, some "a", none, []⟩,
             ⟨AppState.EDIT, some "b", none, []⟩,
             ⟨AppState.COMPARE, some "b", some "c", []⟩]
          historyIndex := 2 } : WState)).history[1]? ∧
    (pushNewState
        { initialWState with
          appState := AppState.COMPARE
          history :=
            [⟨AppState.EDIT, some "a", none, []⟩,
             ⟨AppState.EDIT, some "b", none, []⟩,
             ⟨AppState.COMPARE, some "b", some "c", []⟩]
          historyIndex := 2 }
        ⟨AppState.EDIT, some "c", none, []⟩).history[(2 : Int).toNat]? =
      some (liveSnapshot
        { initialWState with
          appState := AppState.COMPARE
          history :=
            [⟨AppState.EDIT, some "a", none, []⟩,
             ⟨AppState.EDIT, some "b", none, []⟩,
             ⟨AppState.COMPARE, some "b", some "c", []⟩]
          historyIndex := 2 }) :=
  pushNewState_rewrites_current_slot_only _ _ 1 (by decide) (by decide) (by decide)

/-- C4: when the inpainting promise rejects, the handler's catch branch
records the error message (with the default fallback for an empty
message) and returns to EDIT, leaving the original image, the strokes,
the history array and the history index untouched. -/
theorem handleStartProcessing_failure_path (s : WState) (msg : String)
    (himg : s.originalImage ≠ none) :
    (handleStartProcessing s true (Except.error msg)).appState = AppState.EDIT ∧
    (handleStartProcessing s true (Except.error msg)).originalImage = s.originalImage ∧
    (handleStartProcessing s true (Except.error msg)).strokes = s.strokes ∧
    (handleStartProcessing s true (Except.error msg)).history = s.history ∧
    (handleStartProcessing s true (Except.error msg)).historyIndex = s.historyIndex ∧
    (handleStartProcessing s true (Except.error msg)).errorMsg =
      some (if msg = "" then "处理失败，请重试。" else msg) := by
  have hguard : ¬(s.originalImage = none ∨ (true : Bool) = false) := by
    simp [himg]
  unfold handleStartProcessing
  rw [if_neg hguard]
  exact ⟨rfl, rfl, rfl, rfl, rfl, rfl⟩

/-- Witness for C4: a failing call right after an upload. -/
theorem handleStartProcessing_failure_path_witness :
    (handleStartProcessing (handleUpload initialWState "img") true
        (Except.error "network down")).appState = AppState.EDIT ∧
    (handleStartProcessing (handleUpload initialWState "img") true
        (Except.error "network down")).originalImage =
      (handleUpload initialWState "img").originalImage ∧
    (handleStartProcessing (handleUpload initialWState "img") true
        (Except.error "network down")).strokes =
      (handleUpload initialWState "img").strokes ∧
    (handleStartProcessing (handleUpload initialWState "img") true
        (Except.error "network down")).history =
      (handleUpload initialWState "img").history ∧
    (handleStartProcessing (handleUpload initialWState "img") true
        (Except.error "network down")).historyIndex =
      (handleUpload initialWState "img").historyIndex ∧
    (handleStartProcessing (handleUpload initialWState "img") true
        (Except.error "network down")).errorMsg =
      some (if "network down" = "" then "处理失败，请重试。" else "network down") :=
  handleStartProcessing_failure_path (handleUpload initialWState "img")
    "network down" (by decide)

/-- The per-shot block of the final prompt, written as the concatenation
of one `shotLine` per shot in array order, starting at 0-based index
`i`. -/
def shotsJoin (displayLang : Lang) : List StoryboardShot → Nat → String
  | [], _ => ""
  | shot :: rest, i => shotLine displayLang i shot ++ shotsJoin displayLang rest (i + 1)

/-- The `forEach` accumulation of `constructFinalPrompt` appends exactly
the concatenation of the per-shot lines to the accumulator. -/
theorem shotsFold_eq_append_join (displayLang : Lang)
    (shots : List StoryboardShot) :
    ∀ (i : Nat) (acc : String),
      shotsFold displayLang shots i acc = acc ++ shotsJoin displayLang shots i := by
  induction shots with
  | nil =>
      intro i acc
      simp [shotsFold, shotsJoin]
  | cons shot rest ih =>
      intro i acc
      rw [shotsFold, shotsJoin, ih (i + 1), String.append_assoc]

/-- C6: with no storyboard data the final prompt is empty; otherwise it is
the header line (which embeds the selected aspect ratio) followed by a
newline and by exactly one line per shot in array order, the line of the
shot at 0-based position `i` consisting of the language-specific prefix,
the 1-based shot number zero-padded to two digits, the shot type in square
brackets and its content in the selected language, ended by a newline. -/
theorem constructFinalPrompt_structure (displayLang : Lang) (aspectRatio : String) :
    constructFinalPrompt none displayLang aspectRatio = "" ∧
    (∀ d : StoryboardData,
      constructFinalPrompt (some d) displayLang aspectRatio =
        headerLine d displayLang aspectRatio ++ "\n" ++
          shotsJoin displayLang d.shots 0) ∧
    (∀ d : StoryboardData, ∃ pre post : String,
      headerLine d displayLang aspectRatio = pre ++ (aspectRatio ++ post)) ∧
    (∀ i : Nat, shotsJoin displayLang [] i = "") ∧
    (∀ (shot : StoryboardShot) (rest : List StoryboardShot) (i : Nat),
      shotsJoin displayLang (shot :: rest) i =
        shotLine displayLang i shot ++ shotsJoin displayLang rest (i + 1)) ∧
    (∀ (shot : StoryboardShot) (i : Nat),
      shotLine Lang.en i shot =
        "Shot " ++ padStart2 (i + 1) ++ ": [" ++ shot.shotTypeEn ++ "] " ++
          shot.contentEn ++ "\n") ∧
    (∀ (shot : StoryboardShot) (i : Nat),
      shotLine Lang.cn i shot =
        "镜头" ++ padStart2 (i + 1) ++ ": [" ++ shot.shotTypeCn ++ "] " ++
          shot.contentCn ++ "\n") ∧
    (∀ n : Nat, 0 < n → n < 10 → padStart2 n = "0" ++ toString n) := by
    refine ⟨rfl, ?_, ?_, fun i => rfl, fun shot rest i => rfl, ?_, ?_, ?_⟩
    · intro d
      show shotsFold displayLang d.shots 0 (headerLine d displayLang aspectRatio ++ "\n") = _
      rw [shotsFold_eq_append_join]
    · intro d
      cases displayLang with
      | cn =>
          exact ⟨"根据" ++ d.mainPromptCn ++
            "，生成一张具有凝聚力的[3x3]网格图像，包含在同一环境中的[9]个不同摄像机镜头，严格保持人物/物体、服装和光线的一致性，[8K]分辨率，[",
            "]画幅。", by simp [headerLine, String.append_assoc]⟩
      | en =>
          exact ⟨"Based on " ++ d.mainPromptEn ++
            ", generate a cohesive [3x3] grid image containing [9] different camera shots in the same environment, strictly maintaining character/object, clothing, and lighting consistency, [8K] resolution, [",
            "] aspect ratio.", by simp [headerLine, String.append_assoc]⟩
    · intro shot i
      simp [shotLine, String.append_assoc]
    · intro shot i
      simp [shotLine, String.append_assoc]
    · intro n _ hn
      unfold padStart2
      rw [if_pos hn]

/-- Witness for C6 on a one-shot storyboard in English with aspect ratio
16:9. -/
theorem constructFinalPrompt_structure_witness :
    constructFinalPrompt
        (some ⟨"a cat on a sofa", "a cat on a sofa",
          [⟨1, "特写", "Close-up", "猫的脸", "the face of the cat"⟩]⟩)
        Lang.en "16:9" =
      headerLine
        ⟨"a cat on a sofa", "a cat on a sofa",
          [⟨1, "特写", "Close-up", "猫的脸", "the face of the cat"⟩]⟩
        Lang.en "16:9" ++ "\n" ++
        shotsJoin Lang.en
          [⟨1, "特写", "Close-up", "猫的脸", "the face of the cat"⟩] 0 ∧
    padStart2 1 = "0" ++ toString 1 :=
  ⟨(constructFinalPrompt_structure Lang.en "16:9").2.1
      ⟨"a cat on a sofa", "a cat on a sofa",
        [⟨1, "特写", "Close-up", "猫的脸", "the face of the cat"⟩]⟩,
   (constructFinalPrompt_structure Lang.en "16:9").2.2.2.2.2.2.2 1
      (by decide) (by decide)⟩

/-- The nested row/column loop produces `r * c` elements. -/
theorem flatMap_range_map_length {α : Type} (r c : Nat) (f : Nat → Nat → α) :
    ((List.range r).flatMap fun row => (List.range c).map (f row)).length = r * c := by
  induction r with
  | zero => simp
  | succ n ih =>
      rw [List.range_succ, List.flatMap_append]
      simp only [List.length_append, ih, List.flatMap_cons, List.flatMap_nil,
        List.append_nil, List.length_map, List.length_range]
      ring

/-- The element of the nested row/column loop at flat position
`i * c + j` is the body evaluated at row `i` and column `j`. -/
theorem flatMap_range_map_getElem {α : Type} (r c : Nat) (f : Nat → Nat → α)
    (i j : Nat) (hi : i < r) (hj : j < c) :
    ((List.range r).flatMap fun row => (List.range c).map (f row))[i * c + j]? =
      some (f i j) := by
  induction r with
  | zero => omega
  | succ n ih =>
      rw [List.range_succ, List.flatMap_append]
      by_cases h : i < n
      · rw [List.getElem?_append_left, ih h]
        rw [flatMap_range_map_length]
        have hstep : i * c + j < (i + 1) * c := by
          have := hj
          nlinarith
        have : (i + 1) * c ≤ n * c := Nat.mul_le_mul_right c (by omega)
        omega
      · have hin : i = n := by omega
        subst hin
        rw [List.getElem?_append_right
          (by rw [flatMap_range_map_length]; exact Nat.le_add_right _ _)]
        rw [flatMap_range_map_length]
        simp [List.getElem?_range hj, Nat.add_sub_cancel_left]

/-- C5: splitting a `width × height` image into `r` rows and `c` columns
yields exactly `r * c` parts in row-major order, and the part for row `i`
and column `j` is the `(width / c) × (height / r)` source rectangle at
`(j * width / c, i * height / r)`. -/
theorem processImage_row_major (width height : Rat) (r c : Nat) :
    (processImage width height r c).length = r * c ∧
    ∀ i j, i < r → j < c →
      (processImage width height r c)[i * c + j]? =
        some ⟨(j : Rat) * (width / (c : Rat)), (i : Rat) * (height / (r : Rat)),
              width / (c : Rat), height / (r : Rat)⟩ := by
  constructor
  · show ((List.range r).flatMap fun (row : Nat) =>
        (List.range c).map fun (col : Nat) =>
          (⟨(col : Rat) * (width / (c : Rat)), (row : Rat) * (height / (r : Rat)),
            width / (c : Rat), height / (r : Rat)⟩ : SrcRect)).length = r * c
    exact flatMap_range_map_length r c _
  · intro i j hi hj
    show ((List.range r).flatMap fun (row : Nat) =>
        (List.range c).map fun (col : Nat) =>
          (⟨(col : Rat) * (width / (c : Rat)), (row : Rat) * (height / (r : Rat)),
            width / (c : Rat), height / (r : Rat)⟩ : SrcRect))[i * c + j]? = _
    exact flatMap_range_map_getElem r c _ i j hi hj

/-- Witness for C5: a 90 × 60 image split into 2 rows and 3 columns; the
part at row 1, column 2 sits at flat position 5. -/
theorem processImage_row_major_witness :
    (processImage 90 60 2 3).length = 2 * 3 ∧
    (processImage 90 60 2 3)[1 * 3 + 2]? =
      some ⟨(2 : Nat) * ((90 : Rat) / ((3 : Nat) : Rat)),
            (1 : Nat) * ((60 : Rat) / ((2 : Nat) : Rat)),
            (90 : Rat) / ((3 : Nat) : Rat), (60 : Rat) / ((2 : Nat) : Rat)⟩ :=
  ⟨(processImage_row_major 90 60 2 3).1,
   (processImage_row_major 90 60 2 3).2 1 2 (by decide) (by decide)⟩

/-- C7: `removeWatermark` throws before any request is built when the API
key is empty; with a key, the request sent to the model consists of
exactly the instruction text, the resized original photo and the resized
mask; the first non-empty inline image of the response is returned as a
PNG data URL, and a response without inline image data throws after the
call. -/
theorem removeWatermark_contract (decode : String → Option (Nat × Nat))
    (apiKey orig mask rO rM : String) (response : Option (List RespPart))
    (hkey : apiKey ≠ "") :
    removeWatermark decode "" orig mask rO rM response =
      RemoveWatermarkResult.failBeforeCall
        "API Key 未配置。请在URL后添加 ?key=您的API_KEY 或配置环境变量。" ∧
    inpaintRequest decode orig mask rO rM =
      [ReqPart.text inpaintInstruction,
       ReqPart.inlineData
         ((dataUrlMime (resolveResize decode orig false rO)).getD "image/jpeg")
         (stripDataUrl (resolveResize decode orig false rO)),
       ReqPart.inlineData "image/png"
         (stripDataUrl (resolveResize decode mask true rM))] ∧
    (∀ d, firstInlineData (response.getD []) = some d →
      removeWatermark decode apiKey orig mask rO rM response =
        RemoveWatermarkResult.ok (inpaintRequest decode orig mask rO rM)
          ("data:image/png;base64," ++ d)) ∧
    (firstInlineData (response.getD []) = none →
      ∃ m, removeWatermark decode apiKey orig mask rO rM response =
        RemoveWatermarkResult.failAfterCall (inpaintRequest decode orig mask rO rM) m) := by
  refine ⟨rfl, rfl, ?_, ?_⟩
  · intro d hd
    simp only [removeWatermark, if_neg hkey, hd]
  · intro hnone
    simp only [removeWatermark, if_neg hkey, hnone]
    cases hh : (response.getD []).head? with
    | none =>
        refine ⟨"AI生成失败，请稍后重试。", ?_⟩
        simp [hh]
    | some p =>
        cases ht : p.text with
        | none =>
            refine ⟨"AI生成失败，请稍后重试。", ?_⟩
            simp [hh, ht]
        | some t =>
            by_cases he : t = ""
            · refine ⟨"AI生成失败，请稍后重试。", ?_⟩
              simp [hh, ht, he]
            · refine ⟨"AI处理失败: 模型拒绝了该请求(可能涉及敏感内容或无法识别)。", ?_⟩
              simp [hh, ht, he]

/-- Witness for C7: a one-part response holding inline image data is
returned as a PNG data URL. -/
theorem removeWatermark_contract_witness :
    removeWatermark (fun _ => none) "k" "o" "m" "" ""
        (some [⟨some "DATA", none⟩]) =
      RemoveWatermarkResult.ok (inpaintRequest (fun _ => none) "o" "m" "" "")
        ("data:image/png;base64," ++ "DATA") :=
  (removeWatermark_contract (fun _ => none) "k" "o" "m" "" ""
      (some [⟨some "DATA", none⟩]) (by decide)).2.2.1 "DATA" (by decide)

/-- Rounding a ratio cannot overshoot the bound the ratio satisfies:
`Math.round(n / d) ≤ c` whenever `n ≤ c * d`. -/
theorem jsRound_le (n d c : Nat) (hd : 0 < d) (h : n ≤ c * d) :
    jsRound n d ≤ c := by
  unfold jsRound
  rw [← Nat.lt_succ_iff, Nat.div_lt_iff_lt_mul (by omega)]
  nlinarith [h]

/-- The rounding `Math.round(n / d)` underestimates `n / d` by at most half:
`2 * round * d ≤ 2 * n + d`. -/
theorem jsRound_mul_le (n d : Nat) (_hd : 0 < d) :
    2 * jsRound n d * d ≤ 2 * n + d := by
  have h := Nat.div_mul_le_self (2 * n + d) (2 * d)
  unfold jsRound
  nlinarith [h]

/-- The rounding `Math.round(n / d)` overestimates `n / d` by at most half:
`2 * n ≤ 2 * round * d + d`. -/
theorem le_jsRound_mul (n d : Nat) (hd : 0 < d) :
    2 * n ≤ 2 * jsRound n d * d + d := by
  have h : (2 * n + d) < ((2 * n + d) / (2 * d) + 1) * (2 * d) :=
    (Nat.div_lt_iff_lt_mul (by omega)).mp (Nat.lt_succ_self _)
  unfold jsRound
  nlinarith [h]

/-- C10: `resizeImage` computes output dimensions that are both at most
1536, preserves the aspect ratio up to integer rounding (the cross
products `outHeight * width` and `height * outWidth` differ by at most
half the longer side), keeps the dimensions of an image already within
the limit, re-encodes a decodable image at exactly the computed
dimensions, and resolves with the original base64 string when image
loading fails. -/
theorem resizeImage_limits (w h : Nat) (decode : String → Option (Nat × Nat))
    (s : String) (isMask : Bool) (hfail : decode s = none) :
    (resizeDims w h).1 ≤ 1536 ∧
    (resizeDims w h).2 ≤ 1536 ∧
    (w ≤ 1536 → h ≤ 1536 → resizeDims w h = (w, h)) ∧
    2 * (resizeDims w h).2 * w ≤ 2 * h * (resizeDims w h).1 + max w h ∧
    2 * h * (resizeDims w h).1 ≤ 2 * (resizeDims w h).2 * w + max w h ∧
    (∀ (decode2 : String → Option (Nat × Nat)) (s2 : String) (w0 h0 : Nat),
      decode2 s2 = some (w0, h0) →
      resizeImage decode2 s2 isMask =
        ResizeResult.reencoded (resizeDims w0 h0).1 (resizeDims w0 h0).2 isMask) ∧
    resizeImage decode s isMask = ResizeResult.unchanged s := by
  have hdims : (resizeDims w h).1 ≤ 1536 ∧ (resizeDims w h).2 ≤ 1536 ∧
      (w ≤ 1536 → h ≤ 1536 → resizeDims w h = (w, h)) ∧
      2 * (resizeDims w h).2 * w ≤ 2 * h * (resizeDims w h).1 + max w h ∧
      2 * h * (resizeDims w h).1 ≤ 2 * (resizeDims w h).2 * w + max w h := by
    by_cases hbig : 1536 < w ∨ 1536 < h
    · by_cases hwh : h < w
      · have he : resizeDims w h = (1536, jsRound (h * 1536) w) := by
          show (if 1536 < w ∨ 1536 < h then
              if h < w then ((1536 : Nat), jsRound (h * 1536) w)
              else (jsRound (w * 1536) h, 1536)
            else (w, h)) = (1536, jsRound (h * 1536) w)
          rw [if_pos hbig, if_pos hwh]
        rw [he]
        have hw : 0 < w := by omega
        refine ⟨le_rfl, jsRound_le (h * 1536) w 1536 hw (by nlinarith), ?_, ?_, ?_⟩
        · intro hw' hh'
          omega
        · show 2 * jsRound (h * 1536) w * w ≤ 2 * h * 1536 + max w h
          have h1 := jsRound_mul_le (h * 1536) w hw
          have h2 := le_max_left w h
          nlinarith
        · show 2 * h * 1536 ≤ 2 * jsRound (h * 1536) w * w + max w h
          have h1 := le_jsRound_mul (h * 1536) w hw
          have h2 := le_max_left w h
          nlinarith
      · have he : resizeDims w h = (jsRound (w * 1536) h, 1536) := by
          show (if 1536 < w ∨ 1536 < h then
              if h < w then ((1536 : Nat), jsRound (h * 1536) w)
              else (jsRound (w * 1536) h, 1536)
            else (w, h)) = (jsRound (w * 1536) h, 1536)
          rw [if_pos hbig, if_neg hwh]
        rw [he]
        have hh : 0 < h := by omega
        have hwle : w ≤ h := by omega
        refine ⟨jsRound_le (w * 1536) h 1536 hh (by nlinarith), le_rfl, ?_, ?_, ?_⟩
        · intro hw' hh'
          omega
        · show 2 * 1536 * w ≤ 2 * h * jsRound (w * 1536) h + max w h
          have h1 := le_jsRound_mul (w * 1536) h hh
          have h2 := le_max_right w h
          nlinarith
        · show 2 * h * jsRound (w * 1536) h ≤ 2 * 1536 * w + max w h
          have h1 := jsRound_mul_le (w * 1536) h hh
          have h2 := le_max_right w h
          nlinarith
    · have he : resizeDims w h = (w, h) := by
        show (if 1536 < w ∨ 1536 < h then
            if h < w then ((1536 : Nat), jsRound (h * 1536) w)
            else (jsRound (w * 1536) h, 1536)
          else (w, h)) = (w, h)
        rw [if_neg hbig]
      rw [he]
      push_neg at hbig
      exact ⟨by omega, by omega, fun _ _ => rfl,
        Nat.le_add_right _ _, Nat.le_add_right _ _⟩
  refine ⟨hdims.1, hdims.2.1, hdims.2.2.1, hdims.2.2.2.1, hdims.2.2.2.2, ?_, ?_⟩
  · intro decode2 s2 w0 h0 hdec
    rcases hr : resizeDims w0 h0 with ⟨a, b⟩
    simp only [resizeImage, hdec, hr]
  · simp only [resizeImage, hfail]

/-- Witness for C10 on a 4000 × 2000 photo (downscaled to 1536 × 768)
and a string that fails to decode. -/
theorem resizeImage_limits_witness :
    (resizeDims 4000 2000).1 ≤ 1536 ∧
    (resizeDims 4000 2000).2 ≤ 1536 ∧
    ((4000 : Nat) ≤ 1536 → (2000 : Nat) ≤ 1536 → resizeDims 4000 2000 = (4000, 2000)) ∧
    2 * (resizeDims 4000 2000).2 * 4000 ≤ 2 * 2000 * (resizeDims 4000 2000).1 + max 4000 2000 ∧
    2 * 2000 * (resizeDims 4000 2000).1 ≤ 2 * (resizeDims 4000 2000).2 * 4000 + max 4000 2000 ∧
    (∀ (decode2 : String → Option (Nat × Nat)) (s2 : String) (w0 h0 : Nat),
      decode2 s2 = some (w0, h0) →
      resizeImage decode2 s2 false =
        ResizeResult.reencoded (resizeDims w0 h0).1 (resizeDims w0 h0).2 false) ∧
    resizeImage (fun _ => none) "notanimage" false =
      ResizeResult.unchanged "notanimage" :=
  resizeImage_limits 4000 2000 (fun _ => none) "notanimage" false rfl

end ImageToolbox
